import Mathlib

/-
Verification development for the ireland-weather-data mirroring program.

The repository contains two variants of the same Go program:
  * src/main.go ............ a sequential loop over all (directory, url) tasks;
  * src/unnamed/part_001 ... a concurrent variant whose per-task body is the
    function fetchOne, run by a pool of workers whose accesses to the shared
    metadata map are serialized by a single mutex.

Both variants are embedded below as pure state-transformers.  Machine effects
(the HTTP client, temp-file creation, io.Copy, os.Rename, os.Chtimes and
http.ParseTime) are supplied by an environment record per task, so that every
control path of the Go code is represented.  Go maps are embedded as
association lists with first-match lookup; Go's zero-valued map read
m[k] is (getKV m k).getD emptyMeta.  Because the worker pool serializes all
store accesses with one lock and there is at most one task per URL, a run is
embedded as a fold over the task list in task-completion order; theorems
quantify over arbitrary task lists, hence over every serialization.
-/

set_option maxHeartbeats 1000000

/-- One entry of the .metadata.yaml store (Go struct MetadataEntry).  Go's
zero value for both fields is the empty string; the yaml tags carry
omitempty, so an empty field is absent from the serialized form. -/
structure MetadataEntry where
  lastModified : String
  etag : String
deriving DecidableEq, Repr

/-- The Go zero value MetadataEntry{}: what a map read returns for a missing
key. -/
def emptyMeta : MetadataEntry := ⟨"", ""⟩

/-- Go map assignment m[k] = v, on the association-list embedding: replace
the first entry holding k, or append a new entry. -/
def setKV {α : Type} : List (String × α) → String → α → List (String × α)
  | [], k, v => [(k, v)]
  | (k', v') :: rest, k, v =>
      if k' = k then (k, v) :: rest else (k', v') :: setKV rest k v

/-- Go map read with presence information (the v, ok := m[k] form). -/
def getKV {α : Type} : List (String × α) → String → Option α
  | [], _ => none
  | (k', v') :: rest, k => if k' = k then some v' else getKV rest k

/-- Deletion of a key, modelling os.Remove of a path from the file-system
map. -/
def removeKV {α : Type} : List (String × α) → String → List (String × α)
  | [], _ => []
  | (k', v') :: rest, k =>
      if k' = k then removeKV rest k else (k', v') :: removeKV rest k

/-- Go strings.TrimSuffix s suffix: drop the suffix when present (computed
over the character list so that it evaluates by kernel reduction). -/
def trimSuffix (s suffix : String) : String :=
  if suffix.data == s.data.drop (s.data.length - suffix.data.length) then
    String.mk (s.data.take (s.data.length - suffix.data.length))
  else s

/-- Go path/filepath.Base on a slash-separated path: the final path segment
(empty input gives ".", all-slashes input gives "/"). -/
def filepathBase (p : String) : String :=
  if p = "" then "."
  else
    let rev := p.data.reverse.dropWhile (fun c => c == '/')
    if rev = [] then "/"
    else String.mk (rev.takeWhile (fun c => !(c == '/'))).reverse

/-- Split a character list on slashes (the component list strings.Split
would produce, including empty components for doubled slashes). -/
def splitOnSlash : List Char → List Char → List (List Char)
  | [], acc => [acc.reverse]
  | c :: rest, acc =>
      if c == '/' then acc.reverse :: splitOnSlash rest []
      else splitOnSlash rest (c :: acc)

/-- Join path components back with slashes. -/
def joinWithSlash : List String → String
  | [] => ""
  | [x] => x
  | x :: y :: rest => x ++ "/" ++ joinWithSlash (y :: rest)

/-- Stack step of Go path/filepath.Clean: process the slash-separated
components, dropping empty and "." components and resolving "..". -/
def cleanStack (rooted : Bool) : List String → List String → List String
  | acc, [] => acc.reverse
  | acc, c :: rest =>
      if c = "" || c = "." then cleanStack rooted acc rest
      else if c = ".." then
        match acc with
        | [] => cleanStack rooted (if rooted then [] else [".."]) rest
        | top :: tl =>
            if top = ".." then cleanStack rooted (".." :: top :: tl) rest
            else cleanStack rooted tl rest
      else cleanStack rooted (c :: acc) rest

/-- Go path/filepath.Clean for slash-separated paths. -/
def cleanPath (p : String) : String :=
  if p = "" then "."
  else
    let rooted := match p.data with
      | c :: _ => c == '/'
      | [] => false
    let comps := cleanStack rooted [] ((splitOnSlash p.data []).map String.mk)
    let body := joinWithSlash comps
    if rooted = true then "/" ++ body
    else if body = "" then "." else body

/-- Go path/filepath.Join of two elements: skip empty elements, join with a
slash and Clean the result. -/
def filepathJoin (dir name : String) : String :=
  if dir = "" && name = "" then ""
  else if dir = "" then cleanPath name
  else if name = "" then cleanPath dir
  else cleanPath (dir ++ "/" ++ name)

/-- The outgoing GET request, recording the two conditional headers the
program may set (none means the header is absent). -/
structure HttpRequest where
  method : String
  url : String
  ifModifiedSince : Option String
  ifNoneMatch : Option String
deriving DecidableEq, Repr

/-- An HTTP response as the program observes it: the status code, the two
cache-validation headers read via Header.Get (which yields "" for an absent
header), and the body the stream would deliver on a complete copy. -/
structure HttpResponse where
  statusCode : Nat
  lastModified : String
  etag : String
  body : String
deriving DecidableEq, Repr

/-- Result of one http.DefaultClient.Do call: a transport-level error or a
response. -/
inductive DoResult where
  | err : DoResult
  | ok : HttpResponse → DoResult
deriving DecidableEq, Repr

/-- Request construction of fetchOne (part_001 lines 105-114) and of the
main.go loop (lines 62-74): a GET carrying If-Modified-Since exactly when
the prior lastModified is nonempty and If-None-Match exactly when the prior
etag is nonempty. -/
def mkConditionalRequest (url : String) (meta : MetadataEntry) : HttpRequest :=
  ⟨"GET", url,
   if meta.lastModified = "" then none else some meta.lastModified,
   if meta.etag = "" then none else some meta.etag⟩

/-- Destination path computed by both variants:
filepath.Join(dir, strings.TrimSuffix(filepath.Base(url), ".csv") + "-" +
today + ".csv"). -/
def outPathFor (dir url today : String) : String :=
  filepathJoin dir (trimSuffix (filepathBase url) ".csv" ++ "-" ++ today ++ ".csv")

/-- Per-task machine environment for fetchOne: the outcome of each external
effect the task performs.  parseTime is the http.ParseTime oracle
(none models a parse error). -/
structure FetchEnv where
  newRequestOk : Bool
  doResult : DoResult
  tmpName : String
  createTempOk : Bool
  copyOk : Bool
  renameOk : Bool
  chtimesOk : Bool
  parseTime : String → Option Int

/-- The mutable world a task touches: the file system (path to content), the
recorded modification times (path to parsed time), and the shared metadata
map. -/
structure SysState where
  files : List (String × String)
  mtimes : List (String × Int)
  metadata : List (String × MetadataEntry)
deriving DecidableEq, Repr

/-- Classification of one task: fetchOne returned nil after a 304, returned
nil after a download, or returned an error (the cause labels the Go return
site). -/
inductive FetchResult where
  | unchanged : FetchResult
  | fetched : FetchResult
  | failed : String → FetchResult
deriving DecidableEq, Repr

/-- True exactly on the error-returning paths of fetchOne, i.e. when main's
worker sets hadError. -/
def FetchResult.isFailure : FetchResult → Bool
  | .failed _ => true
  | _ => false

/-- What one task produced: its result, the world afterwards, and the trace
of HTTP requests it issued (each http.DefaultClient.Do call appends its
request). -/
structure FetchOutput where
  result : FetchResult
  state : SysState
  requests : List HttpRequest
deriving DecidableEq, Repr

/-- Metadata entry built by fetchOne after a download (part_001 lines
151-161): a fresh MetadataEntry{} whose lastModified is set only when the
header is present and http.ParseTime accepts it, and whose etag is set only
when the header is present.  It does not read the prior entry. -/
def newMetaOf (pt : String → Option Int) (resp : HttpResponse) : MetadataEntry :=
  ⟨if resp.lastModified = "" then ""
    else
      match pt resp.lastModified with
      | some _ => resp.lastModified
      | none => "",
   if resp.etag = "" then "" else resp.etag⟩

/-- Effect of the os.Chtimes call guarded by the Last-Modified header parse
(part_001 lines 152-156, main.go lines 131-136): the final file's mtime is
set to the parsed time only when the header is present, parses, and the
Chtimes call itself succeeds (its error is ignored by the code). -/
def mtimesAfter (pt : String → Option Int) (chtimesOk : Bool) (outPath : String)
    (resp : HttpResponse) (mt : List (String × Int)) : List (String × Int) :=
  if resp.lastModified = "" then mt
  else
    match pt resp.lastModified with
    | some t => if chtimesOk then setKV mt outPath t else mt
    | none => mt

/-- Embedding of fetchOne (src/unnamed/part_001 lines 100-173).  The branch
structure follows the Go control flow: NewRequest error, Do error, 304,
non-200 status, CreateTemp error, io.Copy error (the deferred os.Remove
deletes the temp file), os.Rename error (deferred remove again), and the
success path: rename the temp file onto outPath, run the deferred remove of
the temp name (a no-op after the rename), set the mtime when the
Last-Modified header parses, and store a wholly new metadata entry. -/
def fetchOne (e : FetchEnv) (dir url today : String) (s : SysState) : FetchOutput :=
  let meta := (getKV s.metadata url).getD emptyMeta
  if e.newRequestOk = false then ⟨.failed "NewRequest", s, []⟩
  else
    let req := mkConditionalRequest url meta
    match e.doResult with
    | .err => ⟨.failed "transport", s, [req]⟩
    | .ok resp =>
        if resp.statusCode = 304 then ⟨.unchanged, s, [req]⟩
        else if resp.statusCode ≠ 200 then ⟨.failed "unexpected response", s, [req]⟩
        else
          let outPath := outPathFor dir url today
          if e.createTempOk = false then ⟨.failed "CreateTemp", s, [req]⟩
          else
            let files1 := setKV s.files e.tmpName ""
            if e.copyOk = false then
              ⟨.failed "copy", ⟨removeKV files1 e.tmpName, s.mtimes, s.metadata⟩, [req]⟩
            else
              let files2 := setKV files1 e.tmpName resp.body
              if e.renameOk = false then
                ⟨.failed "rename", ⟨removeKV files2 e.tmpName, s.mtimes, s.metadata⟩, [req]⟩
              else
                let files3 := setKV (removeKV files2 e.tmpName) outPath resp.body
                ⟨.fetched,
                 ⟨removeKV files3 e.tmpName,
                  mtimesAfter e.parseTime e.chtimesOk outPath resp s.mtimes,
                  setKV s.metadata url (newMetaOf e.parseTime resp)⟩,
                 [req]⟩

/-- The result of a task depends only on its environment, never on the
shared state; this function mirrors fetchOne's branch structure. -/
def fetchResultOf (e : FetchEnv) : FetchResult :=
  if e.newRequestOk = false then .failed "NewRequest"
  else
    match e.doResult with
    | .err => .failed "transport"
    | .ok resp =>
        if resp.statusCode = 304 then .unchanged
        else if resp.statusCode ≠ 200 then .failed "unexpected response"
        else if e.createTempOk = false then .failed "CreateTemp"
        else if e.copyOk = false then .failed "copy"
        else if e.renameOk = false then .failed "rename"
        else .fetched

/-- Per-task machine environment for the sequential main.go loop, which
calls http.DefaultClient.Do twice on the 200 path: doResult1 answers the
probing request, doResult2 the re-issued request whose body is streamed. -/
structure SeqEnv where
  newRequestOk : Bool
  doResult1 : DoResult
  doResult2 : DoResult
  tmpName : String
  createTempOk : Bool
  copyOk : Bool
  renameOk : Bool
  chtimesOk : Bool
  parseTime : String → Option Int

/-- What one iteration of the sequential loop produced: whether it set
hadError, the world afterwards and the HTTP request trace. -/
structure SeqOutput where
  hadError : Bool
  state : SysState
  requests : List HttpRequest
deriving DecidableEq, Repr

/-- Metadata entry stored by the sequential main.go loop (lines 130-140):
the prior entry meta is read from the map and mutated field by field, so a
header absent from the response (or a Last-Modified that fails to parse)
leaves the prior field value in place: the update is a merge, not a
replacement. -/
def seqNewMetaOf (pt : String → Option Int) (prior : MetadataEntry)
    (resp : HttpResponse) : MetadataEntry :=
  ⟨if resp.lastModified = "" then prior.lastModified
    else
      match pt resp.lastModified with
      | some _ => resp.lastModified
      | none => prior.lastModified,
   if resp.etag = "" then prior.etag else resp.etag⟩

/-- Embedding of the body of the per-URL loop in src/main.go (lines 60-141).
It differs from fetchOne in three observable ways: after confirming a 200
status it issues the GET a second time and streams that second response; on
an os.Rename error the temporary file is left behind (main.go has no
deferred remove); and the stored metadata entry is the prior entry merged
with the response headers. -/
def processOneSeq (e : SeqEnv) (dir url today : String) (s : SysState) : SeqOutput :=
  let meta := (getKV s.metadata url).getD emptyMeta
  if e.newRequestOk = false then ⟨true, s, []⟩
  else
    let req := mkConditionalRequest url meta
    match e.doResult1 with
    | .err => ⟨true, s, [req]⟩
    | .ok resp1 =>
        if resp1.statusCode = 304 then ⟨false, s, [req]⟩
        else if resp1.statusCode ≠ 200 then ⟨true, s, [req]⟩
        else
          match e.doResult2 with
          | .err => ⟨true, s, [req, req]⟩
          | .ok resp =>
              let outPath := outPathFor dir url today
              if e.createTempOk = false then ⟨true, s, [req, req]⟩
              else
                let files1 := setKV s.files e.tmpName ""
                if e.copyOk = false then
                  ⟨true, ⟨removeKV files1 e.tmpName, s.mtimes, s.metadata⟩, [req, req]⟩
                else
                  let files2 := setKV files1 e.tmpName resp.body
                  if e.renameOk = false then
                    ⟨true, ⟨files2, s.mtimes, s.metadata⟩, [req, req]⟩
                  else
                    let files3 := setKV (removeKV files2 e.tmpName) outPath resp.body
                    ⟨false,
                     ⟨files3,
                      mtimesAfter e.parseTime e.chtimesOk outPath resp s.mtimes,
                      setKV s.metadata url (seqNewMetaOf e.parseTime meta resp)⟩,
                     [req, req]⟩

/-- One enqueued task of the concurrent variant: its catalog directory, its
URL, and the machine environment its execution encounters. -/
structure TaskSpec where
  dir : String
  url : String
  env : FetchEnv

/-- The task phase of the concurrent main (part_001 lines 59-87): every task
runs fetchOne and hadError accumulates the failures.  The single store lock
serializes all metadata accesses, so the phase is a fold over the tasks in
completion order; theorems quantify over arbitrary task lists and hence
over every serialization. -/
def runTasks (today : String) : List TaskSpec → SysState → Bool → SysState × Bool
  | [], s, he => (s, he)
  | t :: rest, s, he =>
      let out := fetchOne t.env t.dir t.url today s
      runTasks today rest out.state (he || out.result.isFailure)

/-- Modelled from the spec: the serialized form that gopkg.in/yaml.v3 (a
library outside src/) produces for one MetadataEntry — a mapping holding
only the nonempty fields, since both carry the omitempty yaml tag. -/
def encodeEntry (me : MetadataEntry) : List (String × String) :=
  (if me.lastModified = "" then [] else [("last_modified", me.lastModified)]) ++
    (if me.etag = "" then [] else [("etag", me.etag)])

/-- Modelled from the spec: yaml.v3 decoding of one entry's mapping — a
field absent from the document leaves the Go zero value "". -/
def decodeEntry (fields : List (String × String)) : MetadataEntry :=
  ⟨(getKV fields "last_modified").getD "", (getKV fields "etag").getD ""⟩

/-- Serialization performed by writeMetadata (part_001 lines 198-216) at the
level of the structured yaml document: each URL maps to its entry's
mapping. -/
def writeMetadataDoc (m : List (String × MetadataEntry)) :
    List (String × List (String × String)) :=
  m.map (fun p => (p.1, encodeEntry p.2))

/-- Parsing performed by readMetadata (part_001 lines 182-196) at the level
of the structured yaml document. -/
def readMetadataDoc (d : List (String × List (String × String))) :
    List (String × MetadataEntry) :=
  d.map (fun p => (p.1, decodeEntry p.2))

/-- Final effect of main after the barrier (part_001 lines 88-96, main.go
lines 143-148): the metadata store is serialized to the backing file
unconditionally, and only then is the exit status decided from hadError. -/
structure RunOutput where
  finalState : SysState
  persistedDoc : List (String × List (String × String))
  exitCode : Nat
deriving DecidableEq, Repr

/-- The whole run of the concurrent main, from a loaded catalog (the task
list) and a loaded metadata store (inside init). -/
def mainRun (today : String) (tasks : List TaskSpec) (init : SysState) : RunOutput :=
  let r := runTasks today tasks init false
  ⟨r.1, writeMetadataDoc r.1.metadata, if r.2 = true then 1 else 0⟩

/-- Concrete http.ParseTime oracle for witnesses: accepts exactly one
well-formed HTTP date. -/
def pt0 : String → Option Int :=
  fun s => if s = "Mon, 01 Jun 2025 00:00:00 GMT" then some 1748736000 else none

/-- Concrete empty world. -/
def st0 : SysState := ⟨[], [], []⟩

/-- Concrete 200 response with both validator headers present. -/
def respOk : HttpResponse := ⟨200, "Mon, 01 Jun 2025 00:00:00 GMT", "v1", "a,b\n1,2\n"⟩

/-- Concrete 200 response with neither validator header present. -/
def respNoHeaders : HttpResponse := ⟨200, "", "", "x,y\n3,4\n"⟩

/-- Concrete 200 response whose Last-Modified does not parse as an HTTP
date. -/
def respBadDate : HttpResponse := ⟨200, "not-a-date", "v2", "x,y\n3,4\n"⟩

/-- Concrete environment for a fully successful fetchOne task. -/
def envOk : FetchEnv := ⟨true, .ok respOk, "tmp1", true, true, true, true, pt0⟩

/-- Concrete environment whose io.Copy fails. -/
def envCopyFail : FetchEnv := ⟨true, .ok respOk, "tmp1", true, false, true, true, pt0⟩

/-- Concrete environment answering 304 Not Modified. -/
def env304 : FetchEnv := ⟨true, .ok ⟨304, "", "", ""⟩, "tmp1", true, true, true, true, pt0⟩

/-- Concrete environment for a successful fetchOne task whose Last-Modified
header does not parse. -/
def envBadDate : FetchEnv := ⟨true, .ok respBadDate, "tmp1", true, true, true, true, pt0⟩

/-- Concrete environment for a second successful same-day fetchOne task on
the same URL, delivering different bytes. -/
def envOk2 : FetchEnv :=
  ⟨true, .ok ⟨200, "", "v9", "a,b\n9,9\n"⟩, "tmp2", true, true, true, true, pt0⟩

/-- Concrete sequential-loop environment answering 200 twice. -/
def seqEnv200 : SeqEnv := ⟨true, .ok respOk, .ok respOk, "tmp1", true, true, true, true, pt0⟩

/-- Concrete sequential-loop environment answering 200 twice with no
validator headers. -/
def seqEnvNoHeaders : SeqEnv :=
  ⟨true, .ok respNoHeaders, .ok respNoHeaders, "tmp1", true, true, true, true, pt0⟩

/-- Concrete sequential-loop environment answering 200 twice with an
unparseable Last-Modified header. -/
def seqEnvBadDate : SeqEnv :=
  ⟨true, .ok respBadDate, .ok respBadDate, "tmp1", true, true, true, true, pt0⟩

/-- Concrete prior world: the store already holds an entry for the example
URL, with both fields set. -/
def stPrior : SysState :=
  ⟨[], [], [("http://x/data.csv", ⟨"Mon, 01 Jun 2025 00:00:00 GMT", "v0"⟩)]⟩

/-- Concrete task for run-level witnesses. -/
def task0 : TaskSpec := ⟨"stationA", "http://x/data.csv", envOk⟩

/-- Concrete failing task for run-level witnesses. -/
def taskFail : TaskSpec := ⟨"stationA", "http://x/other.csv", envCopyFail⟩

theorem getKV_setKV {α : Type} (m : List (String × α)) (k k' : String) (v : α) :
    getKV (setKV m k v) k' = if k' = k then some v else getKV m k' := by
  induction m with
  | nil =>
    by_cases h : k' = k
    · simp [setKV, getKV, h]
    · simp [setKV, getKV, h, show ¬ k = k' from fun hc => h hc.symm]
  | cons p rest ih =>
    by_cases h1 : p.1 = k
    · by_cases h2 : k' = k
      · simp [setKV, getKV, h1, h2]
      · have h3 : ¬ p.1 = k' := fun hc => h2 ((hc.symm.trans h1))
        simp [setKV, getKV, h1, h2, h3, show ¬ k = k' from fun hc => h2 hc.symm]
    · by_cases h2 : p.1 = k'
      · have h3 : ¬ k' = k := fun hc => h1 (h2.trans hc)
        simp [setKV, getKV, h1, h2, h3]
      · simp [setKV, getKV, h1, h2, ih]

theorem setKV_setKV {α : Type} (m : List (String × α)) (k : String) (a b : α) :
    setKV (setKV m k a) k b = setKV m k b := by
  induction m with
  | nil => simp [setKV]
  | cons p rest ih =>
    by_cases h : p.1 = k <;> simp [setKV, h, ih]

theorem removeKV_eq_of_none {α : Type} (m : List (String × α)) (k : String)
    (h : getKV m k = none) : removeKV m k = m := by
  induction m with
  | nil => simp [removeKV]
  | cons p rest ih =>
    by_cases h1 : p.1 = k
    · simp [getKV, h1] at h
    · simp only [getKV, h1, if_false] at h
      simp [removeKV, h1, ih h]

theorem removeKV_setKV_self {α : Type} (m : List (String × α)) (k : String) (v : α)
    (h : getKV m k = none) : removeKV (setKV m k v) k = m := by
  induction m with
  | nil => simp [setKV, removeKV]
  | cons p rest ih =>
    by_cases h1 : p.1 = k
    · simp [getKV, h1] at h
    · simp only [getKV, h1, if_false] at h
      simp [setKV, removeKV, h1, ih h]

theorem removeKV_setKV_ne {α : Type} (m : List (String × α)) (k k0 : String) (v : α)
    (h : k ≠ k0) : removeKV (setKV m k0 v) k = setKV (removeKV m k) k0 v := by
  induction m with
  | nil => simp [setKV, removeKV, show ¬ k0 = k from fun hc => h hc.symm]
  | cons p rest ih =>
    by_cases h1 : p.1 = k0
    · have h2 : ¬ p.1 = k := fun hc => h (hc.symm.trans h1)
      simp [setKV, removeKV, h1, h2, show ¬ k0 = k from fun hc => h hc.symm]
    · by_cases h2 : p.1 = k <;> simp [setKV, removeKV, h1, h2, h, ih]

theorem fetchOne_result (e : FetchEnv) (d u today : String) (s : SysState) :
    (fetchOne e d u today s).result = fetchResultOf e := by
  unfold fetchOne fetchResultOf
  by_cases h1 : e.newRequestOk = false
  · simp [h1]
  · simp only [h1, if_false]
    cases hdo : e.doResult with
    | err => rfl
    | ok resp =>
      by_cases h2 : resp.statusCode = 304
      · simp [h2]
      · by_cases h3 : resp.statusCode ≠ 200
        · simp [h2, h3]
        · by_cases h4 : e.createTempOk = false
          · simp [h2, h3, h4]
          · by_cases h5 : e.copyOk = false
            · simp [h2, h3, h4, h5]
            · by_cases h6 : e.renameOk = false <;> simp [h2, h3, h4, h5, h6]

theorem fetchOne_requests (e : FetchEnv) (d u today : String) (s : SysState)
    (h1 : e.newRequestOk = true) :
    (fetchOne e d u today s).requests =
      [mkConditionalRequest u ((getKV s.metadata u).getD emptyMeta)] := by
  unfold fetchOne
  simp only [h1, Bool.true_eq_false, if_false]
  cases hdo : e.doResult with
  | err => rfl
  | ok resp =>
    by_cases h2 : resp.statusCode = 304
    · simp [h2]
    · by_cases h3 : resp.statusCode ≠ 200
      · simp [h2, h3]
      · by_cases h4 : e.createTempOk = false
        · simp [h2, h3, h4]
        · by_cases h5 : e.copyOk = false
          · simp [h2, h3, h4, h5]
          · by_cases h6 : e.renameOk = false <;> simp [h2, h3, h4, h5, h6]

theorem fetchOne_requests_empty (e : FetchEnv) (d u today : String) (s : SysState)
    (h1 : e.newRequestOk = false) :
    (fetchOne e d u today s).requests = [] := by
  unfold fetchOne
  simp [h1]

theorem fetchOne_state_304 (e : FetchEnv) (d u today : String) (s : SysState)
    (resp : HttpResponse) (h1 : e.newRequestOk = true) (h2 : e.doResult = DoResult.ok resp)
    (h3 : resp.statusCode = 304) :
    fetchOne e d u today s =
      ⟨.unchanged, s, [mkConditionalRequest u ((getKV s.metadata u).getD emptyMeta)]⟩ := by
  unfold fetchOne
  simp [h1, h2, h3]

theorem fetchOne_state_copyFail (e : FetchEnv) (d u today : String) (s : SysState)
    (resp : HttpResponse) (h1 : e.newRequestOk = true) (h2 : e.doResult = DoResult.ok resp)
    (h3 : resp.statusCode = 200) (h4 : e.createTempOk = true) (h5 : e.copyOk = false)
    (hf : getKV s.files e.tmpName = none) :
    fetchOne e d u today s =
      ⟨.failed "copy", s, [mkConditionalRequest u ((getKV s.metadata u).getD emptyMeta)]⟩ := by
  unfold fetchOne
  simp [h1, h2, h3, h4, h5, removeKV_setKV_self _ _ _ hf]

theorem fetchOne_state_success (e : FetchEnv) (d u today : String) (s : SysState)
    (resp : HttpResponse) (h1 : e.newRequestOk = true) (h2 : e.doResult = DoResult.ok resp)
    (h3 : resp.statusCode = 200) (h4 : e.createTempOk = true) (h5 : e.copyOk = true)
    (h6 : e.renameOk = true) (hf : getKV s.files e.tmpName = none)
    (hne : e.tmpName ≠ outPathFor d u today) :
    fetchOne e d u today s =
      ⟨.fetched,
       ⟨setKV s.files (outPathFor d u today) resp.body,
        mtimesAfter e.parseTime e.chtimesOk (outPathFor d u today) resp s.mtimes,
        setKV s.metadata u (newMetaOf e.parseTime resp)⟩,
       [mkConditionalRequest u ((getKV s.metadata u).getD emptyMeta)]⟩ := by
  unfold fetchOne
  simp only [h1, h2, h3, h4, h5, h6, Bool.true_eq_false, if_false, ite_false, ite_true]
  rw [setKV_setKV, removeKV_setKV_self _ _ _ hf, removeKV_setKV_ne _ _ _ _ hne,
    removeKV_eq_of_none _ _ hf]
  simp [h3]

theorem fetchOne_metadata_cases (e : FetchEnv) (d u today : String) (s : SysState) :
    (fetchOne e d u today s).state.metadata = s.metadata ∨
      (fetchResultOf e = FetchResult.fetched ∧
        ∃ v, (fetchOne e d u today s).state.metadata = setKV s.metadata u v) := by
  unfold fetchOne fetchResultOf
  by_cases h1 : e.newRequestOk = false
  · simp [h1]
  · simp only [h1, if_false]
    cases hdo : e.doResult with
    | err => left; rfl
    | ok resp =>
      by_cases h2 : resp.statusCode = 304
      · simp [h2]
      · by_cases h3 : resp.statusCode ≠ 200
        · simp [h2, h3]
        · by_cases h4 : e.createTempOk = false
          · simp [h2, h3, h4]
          · by_cases h5 : e.copyOk = false
            · simp [h2, h3, h4, h5]
            · by_cases h6 : e.renameOk = false
              · simp [h2, h3, h4, h5, h6]
              · right
                refine ⟨by simp [h2, h3, h4, h5, h6], newMetaOf e.parseTime resp, ?_⟩
                simp [h2, h3, h4, h5, h6]

theorem fetchResultOf_fetched_iff (e : FetchEnv) :
    fetchResultOf e = FetchResult.fetched ↔
      e.newRequestOk = true ∧ e.createTempOk = true ∧ e.copyOk = true ∧
        e.renameOk = true ∧
        ∃ resp, e.doResult = DoResult.ok resp ∧ resp.statusCode = 200 := by
  unfold fetchResultOf
  by_cases h1 : e.newRequestOk = false
  · simp [h1]
  · rw [Bool.not_eq_false] at h1
    simp only [h1, Bool.true_eq_false, if_false]
    cases hdo : e.doResult with
    | err => simp
    | ok resp =>
      by_cases h2 : resp.statusCode = 304
      · simp [h2]
      · by_cases h3 : resp.statusCode ≠ 200
        · simp [h2, h3]
        · by_cases h4 : e.createTempOk = false
          · simp [h2, h3, h4]
          · by_cases h5 : e.copyOk = false
            · simp [h2, h3, h4, h5]
            · by_cases h6 : e.renameOk = false
              · simp [h2, h3, h4, h5, h6]
              · rw [Bool.not_eq_false] at h4 h5 h6
                rw [Ne, not_not] at h3
                simp [h2, h3, h4, h5, h6]

theorem isFailure_false_iff (r : FetchResult) :
    r.isFailure = false ↔ r = FetchResult.unchanged ∨ r = FetchResult.fetched := by
  cases r <;> simp [FetchResult.isFailure]

theorem runTasks_flag (today : String) (tasks : List TaskSpec) (s : SysState) (he : Bool) :
    (runTasks today tasks s he).2 =
      (he || tasks.any fun t => (fetchResultOf t.env).isFailure) := by
  induction tasks generalizing s he with
  | nil => simp [runTasks]
  | cons t rest ih => simp [runTasks, ih, fetchOne_result, Bool.or_assoc]

theorem runTasks_metadata_source (today : String) (tasks : List TaskSpec)
    (s : SysState) (he : Bool) (url : String)
    (h : getKV (runTasks today tasks s he).1.metadata url ≠ getKV s.metadata url) :
    ∃ t ∈ tasks, t.url = url ∧ fetchResultOf t.env = FetchResult.fetched := by
  induction tasks generalizing s he with
  | nil => exact absurd rfl h
  | cons t rest ih =>
    simp only [runTasks] at h
    by_cases hmid :
        getKV (fetchOne t.env t.dir t.url today s).state.metadata url =
          getKV s.metadata url
    · have hrest := ih (fetchOne t.env t.dir t.url today s).state
        (he || (fetchOne t.env t.dir t.url today s).result.isFailure)
        (fun hc => h (hc.trans hmid))
      obtain ⟨t', ht', hurl, hres⟩ := hrest
      exact ⟨t', List.mem_cons_of_mem _ ht', hurl, hres⟩
    · rcases fetchOne_metadata_cases t.env t.dir t.url today s with heq | ⟨hres, v, heq⟩
      · exact absurd (by rw [heq]) hmid
      · refine ⟨t, List.mem_cons_self _ _, ?_, hres⟩
        by_contra hne
        have : getKV (fetchOne t.env t.dir t.url today s).state.metadata url =
            getKV s.metadata url := by
          rw [heq, getKV_setKV]
          simp [show ¬ url = t.url from fun hc => hne hc.symm]
        exact hmid this

theorem decodeEntry_encodeEntry (me : MetadataEntry) :
    decodeEntry (encodeEntry me) = me := by
  obtain ⟨lm, et⟩ := me
  by_cases h1 : lm = "" <;> by_cases h2 : et = "" <;>
    simp [encodeEntry, decodeEntry, getKV, h1, h2]

theorem mainRun_exitCode (today : String) (tasks : List TaskSpec) (init : SysState) :
    (mainRun today tasks init).exitCode =
      if (tasks.any fun t => (fetchResultOf t.env).isFailure) = true then 1 else 0 := by
  simp only [mainRun, runTasks_flag, Bool.false_or]

/-- C1: the process exit status is 0 exactly when every task either
succeeded (a download completed) or was unchanged (304), and nonzero exactly
when at least one task failed for a recoverable reason; in both cases the
metadata store is serialized to the backing file before the exit status is
decided, so partial progress is durable. -/
theorem exit_status_and_metadata_persistence (today : String) (tasks : List TaskSpec)
    (init : SysState) :
    ((mainRun today tasks init).exitCode = 0 ↔
      ∀ t ∈ tasks, fetchResultOf t.env = FetchResult.unchanged ∨
        fetchResultOf t.env = FetchResult.fetched) ∧
    ((mainRun today tasks init).exitCode ≠ 0 ↔
      ∃ t ∈ tasks, (fetchResultOf t.env).isFailure = true) ∧
    (mainRun today tasks init).persistedDoc =
      writeMetadataDoc (mainRun today tasks init).finalState.metadata := by
  have hiff : (mainRun today tasks init).exitCode = 0 ↔
      ∀ t ∈ tasks, fetchResultOf t.env = FetchResult.unchanged ∨
        fetchResultOf t.env = FetchResult.fetched := by
    rw [mainRun_exitCode]
    cases hany : (tasks.any fun t => (fetchResultOf t.env).isFailure) with
    | false =>
      simp only [Bool.false_eq_true, if_false]
      constructor
      · intro _ t ht
        have : (fetchResultOf t.env).isFailure = false := by
          by_contra hc
          rw [Bool.not_eq_false] at hc
          have : tasks.any (fun t => (fetchResultOf t.env).isFailure) = true :=
            List.any_eq_true.mpr ⟨t, ht, hc⟩
          rw [hany] at this
          exact Bool.false_ne_true this
        exact (isFailure_false_iff _).mp this
      · intro _
        trivial
    | true =>
      simp only [if_true]
      constructor
      · intro h
        exact absurd h one_ne_zero
      · intro hall
        obtain ⟨t, ht, hp⟩ := List.any_eq_true.mp hany
        rcases hall t ht with h | h <;> rw [h] at hp <;>
          simp [FetchResult.isFailure] at hp
  refine ⟨hiff, ?_, rfl⟩
  rw [mainRun_exitCode]
  cases hany : (tasks.any fun t => (fetchResultOf t.env).isFailure) with
  | false =>
    simp only [Bool.false_eq_true, if_false, ne_eq, not_true_eq_false, false_iff]
    intro ⟨t, ht, hp⟩
    have : tasks.any (fun t => (fetchResultOf t.env).isFailure) = true :=
      List.any_eq_true.mpr ⟨t, ht, hp⟩
    rw [hany] at this
    exact Bool.false_ne_true this
  | true =>
    simp only [if_true, ne_eq, one_ne_zero, not_false_eq_true, true_iff]
    exact List.any_eq_true.mp hany

/-- C2 counterexample: on a concrete 200 run of the sequential main.go loop
the single task issues two GET requests, so "exactly one HTTP GET attempt
per task, never a second request, including on the 200 path" is false of
that variant. -/
theorem seq_loop_two_requests_on_200 :
    (processOneSeq seqEnv200 "stationA" "http://x/data.csv" "2025-10-12"
        st0).requests.length = 2 ∧
      ¬ (processOneSeq seqEnv200 "stationA" "http://x/data.csv" "2025-10-12"
          st0).requests.length = 1 := by
  constructor <;> decide

/-- C2 (amended): the concurrent variant's fetchOne issues exactly one HTTP
request per task whenever the request can be constructed, none when
http.NewRequest fails, and never retries; the sequential main.go loop issues
at most two requests per task, the second exactly on its 200 path, because
it re-issues the GET after confirming the status instead of reusing the
first response. -/
theorem request_count_per_task :
    (∀ e : FetchEnv, ∀ d u today : String, ∀ s : SysState,
        (fetchOne e d u today s).requests.length =
          if e.newRequestOk = true then 1 else 0) ∧
    (∀ e : SeqEnv, ∀ d u today : String, ∀ s : SysState,
        (processOneSeq e d u today s).requests.length ≤ 2) := by
  constructor
  · intro e d u today s
    by_cases h : e.newRequestOk = true
    · rw [fetchOne_requests e d u today s h, if_pos h]
      rfl
    · rw [Bool.not_eq_true] at h
      rw [fetchOne_requests_empty e d u today s h]
      simp [h]
  · intro e d u today s
    unfold processOneSeq
    by_cases h1 : e.newRequestOk = false
    · simp [h1]
    · simp only [h1, if_false]
      cases hdo : e.doResult1 with
      | err => simp
      | ok resp1 =>
        by_cases h2 : resp1.statusCode = 304
        · simp [h2]
        · by_cases h3 : resp1.statusCode ≠ 200
          · simp [h2, h3]
          · cases hdo2 : e.doResult2 with
            | err => simp [h2, h3]
            | ok resp =>
              by_cases h4 : e.createTempOk = false
              · simp [h2, h3, h4]
              · by_cases h5 : e.copyOk = false
                · simp [h2, h3, h4, h5]
                · by_cases h6 : e.renameOk = false <;> simp [h2, h3, h4, h5, h6]

/-- C3 counterexample: a concrete sequential main.go run where the 200
response carries neither a Last-Modified nor an ETag header, yet the stored
entry keeps both prior field values instead of empty ones: the update is a
merge into the old entry, not a replacement. -/
theorem seq_loop_metadata_merges :
    getKV (processOneSeq seqEnvNoHeaders "stationA" "http://x/data.csv" "2025-10-12"
        stPrior).state.metadata "http://x/data.csv" =
      some ⟨"Mon, 01 Jun 2025 00:00:00 GMT", "v0"⟩ ∧
    ¬ getKV (processOneSeq seqEnvNoHeaders "stationA" "http://x/data.csv" "2025-10-12"
        stPrior).state.metadata "http://x/data.csv" = some ⟨"", ""⟩ := by
  constructor <;> decide

/-- C3 (amended): in the concurrent variant's fetchOne, a successful
download stores a metadata entry built solely from the response's
Last-Modified and ETag headers, fully replacing the old entry: an absent
header leaves that field empty whatever the prior entry held.  In the
sequential main.go loop the update is instead a merge that preserves a prior
field when the corresponding header is absent. -/
theorem fetched_metadata_replaces_entry (e : FetchEnv) (d u today : String)
    (s : SysState) (resp : HttpResponse)
    (h1 : e.newRequestOk = true) (h2 : e.doResult = DoResult.ok resp)
    (h3 : resp.statusCode = 200) (h4 : e.createTempOk = true) (h5 : e.copyOk = true)
    (h6 : e.renameOk = true) (hf : getKV s.files e.tmpName = none)
    (hne : e.tmpName ≠ outPathFor d u today) :
    (fetchOne e d u today s).state.metadata =
      setKV s.metadata u (newMetaOf e.parseTime resp) ∧
    (resp.lastModified = "" → (newMetaOf e.parseTime resp).lastModified = "") ∧
    (resp.etag = "" → (newMetaOf e.parseTime resp).etag = "") := by
  refine ⟨?_, ?_, ?_⟩
  · rw [fetchOne_state_success e d u today s resp h1 h2 h3 h4 h5 h6 hf hne]
  · intro h
    simp [newMetaOf, h]
  · intro h
    simp [newMetaOf, h]

/-- C3 witness: the amended replacement property at a concrete input whose
response carries no Last-Modified header and a fresh ETag, over a store
holding a prior entry with both fields set. -/
theorem fetched_metadata_replaces_entry_witness :
    (fetchOne envOk2 "stationA" "http://x/data.csv" "2025-10-12"
        stPrior).state.metadata =
      setKV stPrior.metadata "http://x/data.csv"
        (newMetaOf envOk2.parseTime ⟨200, "", "v9", "a,b\n9,9\n"⟩) :=
  (fetched_metadata_replaces_entry envOk2 "stationA" "http://x/data.csv" "2025-10-12"
    stPrior ⟨200, "", "v9", "a,b\n9,9\n"⟩ rfl rfl rfl rfl rfl rfl (by decide)
    (by decide)).1

/-- C4: when the copy of the response body into the temporary file fails,
fetchOne removes the temporary file, signals failure, and leaves the whole
world — in particular the destination path — exactly as it was before the
task ran. -/
theorem copy_failure_leaves_destination_untouched (e : FetchEnv) (d u today : String)
    (s : SysState) (resp : HttpResponse)
    (h1 : e.newRequestOk = true) (h2 : e.doResult = DoResult.ok resp)
    (h3 : resp.statusCode = 200) (h4 : e.createTempOk = true) (h5 : e.copyOk = false)
    (hf : getKV s.files e.tmpName = none) :
    (fetchOne e d u today s).result = FetchResult.failed "copy" ∧
    (fetchOne e d u today s).state = s ∧
    getKV (fetchOne e d u today s).state.files (outPathFor d u today) =
      getKV s.files (outPathFor d u today) := by
  rw [fetchOne_state_copyFail e d u today s resp h1 h2 h3 h4 h5 hf]
  exact ⟨rfl, rfl, rfl⟩

/-- C4 witness: the copy-failure property at a concrete input. -/
theorem copy_failure_leaves_destination_untouched_witness :
    (fetchOne envCopyFail "stationA" "http://x/data.csv" "2025-10-12" st0).result =
      FetchResult.failed "copy" ∧
    (fetchOne envCopyFail "stationA" "http://x/data.csv" "2025-10-12" st0).state = st0 ∧
    getKV (fetchOne envCopyFail "stationA" "http://x/data.csv" "2025-10-12"
        st0).state.files (outPathFor "stationA" "http://x/data.csv" "2025-10-12") =
      getKV st0.files (outPathFor "stationA" "http://x/data.csv" "2025-10-12") :=
  copy_failure_leaves_destination_untouched envCopyFail "stationA" "http://x/data.csv"
    "2025-10-12" st0 respOk rfl rfl rfl rfl rfl (by decide)

/-- C5: a URL's store entry is written only by a task that completed the
download: whenever the store differs at a URL after the task phase, some
task for that URL finished with a Fetched result; a Fetched result requires
the copy and the atomic rename to have succeeded on a 200 response; and on
the Unchanged and Failed paths the store is untouched. -/
theorem store_entries_only_from_successful_fetch :
    (∀ today : String, ∀ tasks : List TaskSpec, ∀ s : SysState, ∀ he : Bool,
      ∀ url : String,
        getKV (runTasks today tasks s he).1.metadata url ≠ getKV s.metadata url →
          ∃ t ∈ tasks, t.url = url ∧ fetchResultOf t.env = FetchResult.fetched) ∧
    (∀ e : FetchEnv, fetchResultOf e = FetchResult.fetched →
        e.copyOk = true ∧ e.renameOk = true ∧
          ∃ resp, e.doResult = DoResult.ok resp ∧ resp.statusCode = 200) ∧
    (∀ e : FetchEnv, ∀ d u today : String, ∀ s : SysState,
        fetchResultOf e ≠ FetchResult.fetched →
          (fetchOne e d u today s).state.metadata = s.metadata) := by
  refine ⟨runTasks_metadata_source, ?_, ?_⟩
  · intro e h
    have hc := (fetchResultOf_fetched_iff e).mp h
    exact ⟨hc.2.2.1, hc.2.2.2.1, hc.2.2.2.2⟩
  · intro e d u today s h
    rcases fetchOne_metadata_cases e d u today s with heq | ⟨hres, _, _⟩
    · exact heq
    · exact absurd hres h

/-- C6: a 304 Not Modified response makes the task a no-op: the result is
Unchanged and the world — files, modification times and the store entry for
the URL — is exactly as before. -/
theorem not_modified_is_noop (e : FetchEnv) (d u today : String) (s : SysState)
    (resp : HttpResponse) (h1 : e.newRequestOk = true)
    (h2 : e.doResult = DoResult.ok resp) (h3 : resp.statusCode = 304) :
    (fetchOne e d u today s).result = FetchResult.unchanged ∧
    (fetchOne e d u today s).state = s ∧
    getKV (fetchOne e d u today s).state.metadata u = getKV s.metadata u := by
  rw [fetchOne_state_304 e d u today s resp h1 h2 h3]
  exact ⟨rfl, rfl, rfl⟩

/-- C6 witness: the 304 no-op property at a concrete input over a store
holding a prior entry. -/
theorem not_modified_is_noop_witness :
    (fetchOne env304 "stationA" "http://x/data.csv" "2025-10-12" stPrior).result =
      FetchResult.unchanged ∧
    (fetchOne env304 "stationA" "http://x/data.csv" "2025-10-12" stPrior).state =
      stPrior ∧
    getKV (fetchOne env304 "stationA" "http://x/data.csv" "2025-10-12"
        stPrior).state.metadata "http://x/data.csv" =
      getKV stPrior.metadata "http://x/data.csv" :=
  not_modified_is_noop env304 "stationA" "http://x/data.csv" "2025-10-12" stPrior
    ⟨304, "", "", ""⟩ rfl rfl rfl

/-- C7: the issued GET carries If-Modified-Since exactly when the prior
entry's lastModified field is nonempty, with that value, and If-None-Match
exactly when the prior etag field is nonempty, with that value; when neither
is set the request carries no conditional headers. -/
theorem conditional_headers_match_prior (e : FetchEnv) (d u today : String)
    (s : SysState) (h1 : e.newRequestOk = true) :
    (fetchOne e d u today s).requests =
      [mkConditionalRequest u ((getKV s.metadata u).getD emptyMeta)] ∧
    (∀ url : String, ∀ meta : MetadataEntry,
      (mkConditionalRequest url meta).method = "GET" ∧
      (mkConditionalRequest url meta).url = url ∧
      (mkConditionalRequest url meta).ifModifiedSince =
        (if meta.lastModified = "" then none else some meta.lastModified) ∧
      (mkConditionalRequest url meta).ifNoneMatch =
        (if meta.etag = "" then none else some meta.etag)) :=
  ⟨fetchOne_requests e d u today s h1, fun _ _ => ⟨rfl, rfl, rfl, rfl⟩⟩

/-- C7 witness: the issued request at a concrete input whose prior entry has
both fields set. -/
theorem conditional_headers_match_prior_witness :
    (fetchOne envOk "stationA" "http://x/data.csv" "2025-10-12" stPrior).requests =
      [mkConditionalRequest "http://x/data.csv"
        ((getKV stPrior.metadata "http://x/data.csv").getD emptyMeta)] :=
  (conditional_headers_match_prior envOk "stationA" "http://x/data.csv" "2025-10-12"
    stPrior rfl).1

/-- C8: the destination file name is deterministic in the URL and the run
date — the URL's final path segment with its .csv suffix stripped, a hyphen,
the date and .csv, joined under the catalog directory; a successful task
writes the response body exactly there and touches no other path, and a
second same-day success for the same URL overwrites that same path. -/
theorem destination_naming_and_same_day_overwrite (e1 e2 : FetchEnv)
    (d u today : String) (s : SysState) (resp1 resp2 : HttpResponse)
    (h1 : e1.newRequestOk = true) (h2 : e1.doResult = DoResult.ok resp1)
    (h3 : resp1.statusCode = 200) (h4 : e1.createTempOk = true)
    (h5 : e1.copyOk = true) (h6 : e1.renameOk = true)
    (hf1 : getKV s.files e1.tmpName = none)
    (hne1 : e1.tmpName ≠ outPathFor d u today)
    (g1 : e2.newRequestOk = true) (g2 : e2.doResult = DoResult.ok resp2)
    (g3 : resp2.statusCode = 200) (g4 : e2.createTempOk = true)
    (g5 : e2.copyOk = true) (g6 : e2.renameOk = true)
    (gf : getKV (fetchOne e1 d u today s).state.files e2.tmpName = none)
    (gne : e2.tmpName ≠ outPathFor d u today) :
    outPathFor d u today =
      filepathJoin d (trimSuffix (filepathBase u) ".csv" ++ "-" ++ today ++ ".csv") ∧
    getKV (fetchOne e1 d u today s).state.files (outPathFor d u today) =
      some resp1.body ∧
    (∀ p : String, p ≠ outPathFor d u today →
      getKV (fetchOne e1 d u today s).state.files p = getKV s.files p) ∧
    getKV (fetchOne e2 d u today (fetchOne e1 d u today s).state).state.files
        (outPathFor d u today) = some resp2.body := by
  refine ⟨rfl, ?_, ?_, ?_⟩
  · rw [fetchOne_state_success e1 d u today s resp1 h1 h2 h3 h4 h5 h6 hf1 hne1]
    rw [getKV_setKV]
    simp
  · intro p hp
    rw [fetchOne_state_success e1 d u today s resp1 h1 h2 h3 h4 h5 h6 hf1 hne1]
    rw [getKV_setKV]
    simp [hp]
  · rw [fetchOne_state_success e2 d u today (fetchOne e1 d u today s).state resp2
      g1 g2 g3 g4 g5 g6 gf gne]
    rw [getKV_setKV]
    simp

/-- C8 witness: two same-day successful tasks for the same URL at concrete
inputs; the second overwrites the path the first created. -/
theorem destination_naming_and_same_day_overwrite_witness :
    getKV (fetchOne envOk2 "stationA" "http://x/data.csv" "2025-10-12"
        (fetchOne envOk "stationA" "http://x/data.csv" "2025-10-12" st0).state).state.files
      (outPathFor "stationA" "http://x/data.csv" "2025-10-12") = some "a,b\n9,9\n" :=
  (destination_naming_and_same_day_overwrite envOk envOk2 "stationA"
    "http://x/data.csv" "2025-10-12" st0 respOk ⟨200, "", "v9", "a,b\n9,9\n"⟩
    rfl rfl rfl rfl rfl rfl (by decide) (by decide)
    rfl rfl rfl rfl rfl rfl (by decide) (by decide)).2.2.2

/-- C9: persisting the metadata store and loading it back reproduces exactly
the same mapping, for the empty mapping and for mappings whose entries have
any mix of present and absent optional fields. -/
theorem metadata_store_roundtrip (m : List (String × MetadataEntry)) :
    readMetadataDoc (writeMetadataDoc m) = m := by
  induction m with
  | nil => rfl
  | cons p rest ih =>
    show (p.1, decodeEntry (encodeEntry p.2)) :: readMetadataDoc (writeMetadataDoc rest) =
      p :: rest
    rw [decodeEntry_encodeEntry, ih]

/-- C10 counterexample: a concrete sequential main.go run whose 200 response
has an unparseable Last-Modified header: the stored entry keeps the prior
lastModified value rather than an empty one (the new ETag is recorded), so
"the last_modified field is left empty" is false of that variant. -/
theorem seq_loop_bad_date_keeps_prior_value :
    getKV (processOneSeq seqEnvBadDate "stationA" "http://x/data.csv" "2025-10-12"
        stPrior).state.metadata "http://x/data.csv" =
      some ⟨"Mon, 01 Jun 2025 00:00:00 GMT", "v2"⟩ ∧
    ¬ getKV (processOneSeq seqEnvBadDate "stationA" "http://x/data.csv" "2025-10-12"
        stPrior).state.metadata "http://x/data.csv" = some ⟨"", "v2"⟩ := by
  constructor <;> decide

/-- C10 (amended): in the concurrent variant's fetchOne, a 200 response
whose Last-Modified header does not parse still counts as a success, the
stored entry's lastModified is left empty (the header value is discarded), a
present ETag is still recorded, and no modification time is set; in the
sequential main.go loop the unparseable header instead leaves the prior
lastModified value in place (the header value is equally discarded). -/
theorem fetched_invalid_last_modified_discarded (e : FetchEnv) (d u today : String)
    (s : SysState) (resp : HttpResponse)
    (h1 : e.newRequestOk = true) (h2 : e.doResult = DoResult.ok resp)
    (h3 : resp.statusCode = 200) (h4 : e.createTempOk = true) (h5 : e.copyOk = true)
    (h6 : e.renameOk = true) (hf : getKV s.files e.tmpName = none)
    (hne : e.tmpName ≠ outPathFor d u today)
    (hlm : resp.lastModified ≠ "") (hpt : e.parseTime resp.lastModified = none) :
    (fetchOne e d u today s).result = FetchResult.fetched ∧
    (fetchOne e d u today s).state.metadata =
      setKV s.metadata u ⟨"", if resp.etag = "" then "" else resp.etag⟩ ∧
    (fetchOne e d u today s).state.mtimes = s.mtimes := by
  rw [fetchOne_state_success e d u today s resp h1 h2 h3 h4 h5 h6 hf hne]
  refine ⟨rfl, ?_, ?_⟩
  · simp [newMetaOf, hlm, hpt]
  · simp [mtimesAfter, hlm, hpt]

/-- C10 witness: the amended property at a concrete input whose
Last-Modified header is not an HTTP date. -/
theorem fetched_invalid_last_modified_discarded_witness :
    (fetchOne envBadDate "stationA" "http://x/data.csv" "2025-10-12" st0).result =
      FetchResult.fetched ∧
    (fetchOne envBadDate "stationA" "http://x/data.csv" "2025-10-12"
        st0).state.metadata =
      setKV st0.metadata "http://x/data.csv" ⟨"", "v2"⟩ ∧
    (fetchOne envBadDate "stationA" "http://x/data.csv" "2025-10-12"
        st0).state.mtimes = st0.mtimes :=
  fetched_invalid_last_modified_discarded envBadDate "stationA" "http://x/data.csv"
    "2025-10-12" st0 respBadDate rfl rfl rfl rfl rfl rfl (by decide) (by decide)
    (by decide) (by decide)
